import Mathlib

/-!
Shallow embedding of the CSV parsing and derived-view logic of the
dataStreamAssessment dashboard (SvelteKit, TypeScript).  The embedded
functions mirror `src/lib/components/FileUpload.svelte`
(`processFile`, `readCSVColumns`, `parseCSVLine`) and
`src/routes/+page.svelte` (`locationNameIdMap`, `monitoringLocations`,
`averageResultValue`, `handleDataLoaded`).  JavaScript numbers are
modelled as `JSNum` — an exact rational or one of the two infinities, with
`NaN` as `Option.none`; strings as Lean `String` / `List Char`;
`undefined` cell reads as `Option String` with `none`; plain objects as
association lists of own properties with JS enumeration order and the
`Object.prototype` chain modelled where the code depends on them.
-/

namespace DataStream

/-- The JavaScript StrWhiteSpace characters relevant to `String.prototype.trim`
(ASCII whitespace, NBSP, BOM, line/paragraph separators). -/
def jsWhitespaceChar (c : Char) : Bool :=
  c = ' ' || c = '\t' || c = '\n' || c = '\r' || c = '\x0b' || c = '\x0c' ||
  c = ' ' || c = '﻿' || c = ' ' || c = ' '

/-- JS `String.prototype.trim` on a character list: drop leading and trailing
whitespace. -/
def trimList (l : List Char) : List Char :=
  ((l.dropWhile jsWhitespaceChar).reverse.dropWhile jsWhitespaceChar).reverse

/-- JS `String.prototype.trim`. -/
def jsTrim (s : String) : String :=
  ⟨trimList s.data⟩

/-- State of the character scan in `parseCSVLine`: fields already pushed,
the accumulator string, and the "inside quoted field" flag. -/
structure LineState where
  result : List String
  current : List Char
  inQuotes : Bool
  deriving Repr, DecidableEq

/-- One iteration of the `for` loop in `parseCSVLine`
(`FileUpload.svelte`): a double quote toggles `inQuotes`; a comma outside
quotes pushes the trimmed accumulator; any other character is appended to
the accumulator. -/
def stepChar (s : LineState) (c : Char) : LineState :=
  if c = '"' then
    { result := s.result, current := s.current, inQuotes := !s.inQuotes }
  else if c = ',' && !s.inQuotes then
    { result := s.result ++ [⟨trimList s.current⟩], current := [], inQuotes := s.inQuotes }
  else
    { result := s.result, current := s.current ++ [c], inQuotes := s.inQuotes }

/-- Run the scan loop of `parseCSVLine` over a list of characters. -/
def runLine (s : LineState) (l : List Char) : LineState :=
  l.foldl stepChar s

/-- `parseCSVLine` from `FileUpload.svelte`: scan the line, then push the
final trimmed accumulator. -/
def parseCSVLine (line : String) : List String :=
  let s := runLine { result := [], current := [], inQuotes := false } line.data
  s.result ++ [⟨trimList s.current⟩]

example : parseCSVLine "a,b" = ["a", "b"] := by decide
example : jsTrim "  a b  " = "a b" := by decide

/-! ### Lemmas about `trimList` -/

theorem dropWhile_self (p : α → Bool) (l : List α) :
    (l.dropWhile p).dropWhile p = l.dropWhile p := by
  cases h : l.dropWhile p with
  | nil => rfl
  | cons a t =>
    have hhead := List.head?_dropWhile_not p l
    rw [h] at hhead
    simp only [List.head?_cons] at hhead
    exact List.dropWhile_cons_of_neg (by simp [hhead])

theorem trimList_sublist (l : List Char) : trimList l ⊆ l := by
  intro x hx
  unfold trimList at hx
  rw [List.mem_reverse] at hx
  have h1 := List.dropWhile_subset jsWhitespaceChar hx
  rw [List.mem_reverse] at h1
  exact List.dropWhile_subset jsWhitespaceChar h1

theorem trimList_idem (l : List Char) : trimList (trimList l) = trimList l := by
  unfold trimList
  set A := l.dropWhile jsWhitespaceChar with hA
  set B := A.reverse.dropWhile jsWhitespaceChar with hB
  have hBrev : B.reverse.dropWhile jsWhitespaceChar = B.reverse := by
    cases hcase : B.reverse with
    | nil => simp
    | cons c cs =>
      have hsplit : A.reverse = A.reverse.takeWhile jsWhitespaceChar ++ B := by
        rw [hB]; exact (List.takeWhile_append_dropWhile jsWhitespaceChar A.reverse).symm
      have hAeq : A = B.reverse ++ (A.reverse.takeWhile jsWhitespaceChar).reverse := by
        have := congrArg List.reverse hsplit
        rw [List.reverse_reverse, List.reverse_append] at this
        exact this
      have hheadA : jsWhitespaceChar c = false := by
        have hh := List.head?_dropWhile_not jsWhitespaceChar l
        rw [← hA] at hh
        rw [hAeq, hcase] at hh
        simpa using hh
      exact List.dropWhile_cons_of_neg (by simp [hheadA])
  rw [hBrev, List.reverse_reverse]
  have : B.dropWhile jsWhitespaceChar = B := by
    rw [hB]; exact dropWhile_self _ _
  rw [this]

theorem trimList_of_mk (l : List Char) : jsTrim ⟨trimList l⟩ = ⟨trimList l⟩ := by
  unfold jsTrim
  simp only [String.data]
  rw [trimList_idem]

/-! ### Invariants of the line scan: fields never contain a quote and are trimmed -/

/-- Invariant carried by the scan state: the accumulator holds no double
quote, and every already-pushed field is quote-free and trimmed. -/
def ScanInv (s : LineState) : Prop :=
  '"' ∉ s.current ∧ ∀ f ∈ s.result, '"' ∉ f.data ∧ jsTrim f = f

theorem scanInv_step (s : LineState) (c : Char) (h : ScanInv s) :
    ScanInv (stepChar s c) := by
  obtain ⟨hcur, hres⟩ := h
  unfold stepChar
  by_cases hq : c = '"'
  · simp only [hq, if_pos rfl]
    exact ⟨hcur, hres⟩
  · rw [if_neg hq]
    by_cases hcomma : (c = ',' && !s.inQuotes) = true
    · rw [if_pos hcomma]
      refine ⟨List.not_mem_nil _, ?_⟩
      intro f hf
      rcases List.mem_append.mp hf with hf1 | hf2
      · exact hres f hf1
      · rcases List.mem_singleton.mp hf2 with rfl
        constructor
        · intro hmem
          exact hcur (trimList_sublist _ hmem)
        · exact trimList_of_mk _
    · rw [if_neg hcomma]
      refine ⟨?_, hres⟩
      intro hmem
      rcases List.mem_append.mp hmem with h1 | h2
      · exact hcur h1
      · exact hq (List.mem_singleton.mp h2).symm

theorem scanInv_runLine (l : List Char) (s : LineState) (h : ScanInv s) :
    ScanInv (runLine s l) := by
  induction l generalizing s with
  | nil => exact h
  | cons c cs ih => exact ih (stepChar s c) (scanInv_step s c h)

theorem parseCSVLine_fields (line : String) (f : String)
    (hf : f ∈ parseCSVLine line) : '"' ∉ f.data ∧ jsTrim f = f := by
  unfold parseCSVLine at hf
  have hinv : ScanInv (runLine { result := [], current := [], inQuotes := false } line.data) :=
    scanInv_runLine line.data _ ⟨List.not_mem_nil _, by intro f hf; cases hf⟩
  obtain ⟨hcur, hres⟩ := hinv
  rcases List.mem_append.mp hf with h1 | h2
  · exact hres f h1
  · rcases List.mem_singleton.mp h2 with rfl
    constructor
    · intro hmem
      exact hcur (trimList_sublist _ hmem)
    · exact trimList_of_mk _

/-! ### Field count for quote-free lines -/

theorem runLine_count_noQuote (l : List Char) (s : LineState)
    (hq : '"' ∉ l) (hin : s.inQuotes = false) :
    (runLine s l).result.length = s.result.length + l.count ',' ∧
      (runLine s l).inQuotes = false := by
  induction l generalizing s with
  | nil => exact ⟨by simp [runLine], hin⟩
  | cons c cs ih =>
    have hcq : c ≠ '"' := fun h => hq (h ▸ List.mem_cons_self c cs)
    have hcs : '"' ∉ cs := fun h => hq (List.mem_cons_of_mem c h)
    have hrun : runLine s (c :: cs) = runLine (stepChar s c) cs := rfl
    by_cases hc : c = ','
    · have hstep : stepChar s c =
          { result := s.result ++ [⟨trimList s.current⟩], current := [], inQuotes := s.inQuotes } := by
        unfold stepChar
        rw [if_neg hcq, if_pos (by simp [hc, hin])]
      obtain ⟨ih1, ih2⟩ := ih (stepChar s c) hcs (by rw [hstep]; exact hin)
      refine ⟨?_, by rw [hrun]; exact ih2⟩
      rw [hrun, ih1, hstep]
      simp [hc, List.count_cons]
      omega
    · have hstep : stepChar s c =
          { result := s.result, current := s.current ++ [c], inQuotes := s.inQuotes } := by
        unfold stepChar
        rw [if_neg hcq, if_neg (by simp [hc])]
      obtain ⟨ih1, ih2⟩ := ih (stepChar s c) hcs (by rw [hstep]; exact hin)
      refine ⟨?_, by rw [hrun]; exact ih2⟩
      rw [hrun, ih1, hstep]
      simp [List.count_cons, hc]

/-! ### Quote parity and unbalanced quotes -/

theorem runLine_inQuotes_parity (l : List Char) (s : LineState) :
    (runLine s l).inQuotes = (s.inQuotes ^^ (l.count '"' % 2 == 1)) := by
  induction l generalizing s with
  | nil => simp [runLine]
  | cons c cs ih =>
    have hrun : runLine s (c :: cs) = runLine (stepChar s c) cs := rfl
    rw [hrun, ih]
    by_cases hc : c = '"'
    · have hstep : (stepChar s c).inQuotes = !s.inQuotes := by
        unfold stepChar; rw [if_pos hc]
      rw [hstep]
      have hcount : (c :: cs).count '"' = cs.count '"' + 1 := by
        simp [List.count_cons, hc]
      rw [hcount]
      have hmod : ((cs.count '"' + 1) % 2 == 1) = !(cs.count '"' % 2 == 1) := by
        rcases Nat.even_or_odd (cs.count '"') with he | ho
        · have h0 : cs.count '"' % 2 = 0 := Nat.even_iff.mp he
          have h1 : (cs.count '"' + 1) % 2 = 1 := by omega
          rw [h0, h1]; rfl
        · have h1 : cs.count '"' % 2 = 1 := Nat.odd_iff.mp ho
          have h0 : (cs.count '"' + 1) % 2 = 0 := by omega
          rw [h0, h1]; rfl
      rw [hmod]
      cases s.inQuotes <;> cases (cs.count '"' % 2 == 1) <;> rfl
    · have hstep : (stepChar s c).inQuotes = s.inQuotes := by
        unfold stepChar
        rw [if_neg hc]
        by_cases hcomma : (c = ',' && !s.inQuotes) = true
        · rw [if_pos hcomma]
        · rw [if_neg hcomma]
      rw [hstep]
      have hcount : (c :: cs).count '"' = cs.count '"' := by
        simp [List.count_cons, hc]
      rw [hcount]

theorem runLine_inQuotes_true (l : List Char) (s : LineState)
    (hq : '"' ∉ l) (hin : s.inQuotes = true) :
    runLine s l = { result := s.result, current := s.current ++ l, inQuotes := true } := by
  induction l generalizing s with
  | nil =>
    cases s
    simp_all [runLine]
  | cons c cs ih =>
    have hcq : c ≠ '"' := fun h => hq (h ▸ List.mem_cons_self c cs)
    have hcs : '"' ∉ cs := fun h => hq (List.mem_cons_of_mem c h)
    have hstep : stepChar s c =
        { result := s.result, current := s.current ++ [c], inQuotes := s.inQuotes } := by
      unfold stepChar
      rw [if_neg hcq, if_neg (by simp [hin])]
    have hrun : runLine s (c :: cs) = runLine (stepChar s c) cs := rfl
    rw [hrun, hstep, ih _ hcs (by simp [hin])]
    simp [hin]

/-! ### Claim theorems for the CSV Line Parser -/

/-- C5: for every input line, a double-quote character only toggles the
inside-quoted-field flag and is never emitted into any output field; a comma
read while the flag is set stays inside the current field; every output field
is trimmed of surrounding whitespace; and parsing the line `a,"b, c",d`
yields exactly the three fields `a`, `b, c`, `d`. -/
theorem parseCSVLine_quote_handling :
    (∀ line : String, ∀ f ∈ parseCSVLine line, '"' ∉ f.data ∧ jsTrim f = f) ∧
      parseCSVLine "a,\"b, c\",d" = ["a", "b, c", "d"] := by
  constructor
  · intro line f hf
    exact parseCSVLine_fields line f hf
  · decide

/-- Witness for C5: the field `b, c` of the example line is quote-free and
trimmed. -/
theorem parseCSVLine_quote_handling_witness :
    '"' ∉ ("b, c" : String).data ∧ jsTrim "b, c" = "b, c" :=
  parseCSVLine_quote_handling.1 "a,\"b, c\",d" "b, c" (by decide)

/-- C6: for every input line containing no double-quote character, the number
of fields returned by `parseCSVLine` equals one plus the number of comma
characters in the line. -/
theorem parseCSVLine_field_count (line : String) (hq : '"' ∉ line.data) :
    (parseCSVLine line).length = 1 + line.data.count ',' := by
  unfold parseCSVLine
  obtain ⟨h1, _⟩ :=
    runLine_count_noQuote line.data { result := [], current := [], inQuotes := false } hq rfl
  simp only [List.length_append, List.length_singleton, h1]
  simp
  omega

/-- Witness for C6 at the line `a,b,c`. -/
theorem parseCSVLine_field_count_witness :
    (parseCSVLine "a,b,c").length = 1 + ("a,b,c" : String).data.count ',' :=
  parseCSVLine_field_count "a,b,c" (by decide)

/-- C7: for every input line with an odd number of double quotes, the parser
returns normally (it is a total function of the line); the inside-quoted flag
is still set when the scan ends, and every character after the last unmatched
quote — commas included — is accumulated into the final field's content
instead of terminating it: splitting the line as `l1 ++ l2` with all quotes
in `l1`, the output is the fields pushed while scanning `l1` followed by one
final field holding the rest of `l1`'s accumulator with all of `l2` appended. -/
theorem parseCSVLine_unbalanced_quotes (l1 l2 : List Char)
    (hq : '"' ∉ l2) (hodd : (l1 ++ l2).count '"' % 2 = 1) :
    (runLine { result := [], current := [], inQuotes := false } (l1 ++ l2)).inQuotes = true ∧
      parseCSVLine ⟨l1 ++ l2⟩ =
        (runLine { result := [], current := [], inQuotes := false } l1).result ++
          [⟨trimList ((runLine { result := [], current := [], inQuotes := false } l1).current ++ l2)⟩] := by
  have hcount2 : l2.count '"' = 0 := List.count_eq_zero.mpr hq
  have hcount1 : l1.count '"' % 2 = 1 := by
    rw [List.count_append, hcount2] at hodd
    simpa using hodd
  have hsplit : runLine { result := [], current := [], inQuotes := false } (l1 ++ l2) =
      runLine (runLine { result := [], current := [], inQuotes := false } l1) l2 := by
    unfold runLine
    exact List.foldl_append stepChar { result := [], current := [], inQuotes := false } l1 l2
  have hq1 : (runLine { result := [], current := [], inQuotes := false } l1).inQuotes = true := by
    rw [runLine_inQuotes_parity]
    simp [hcount1]
  have hl2 := runLine_inQuotes_true l2
    (runLine { result := [], current := [], inQuotes := false } l1) hq hq1
  constructor
  · rw [hsplit, hl2]
  · unfold parseCSVLine
    simp only [String.data]
    rw [hsplit, hl2]

/-- Witness for C7 at the line `a,"b,c` split after the quote. -/
theorem parseCSVLine_unbalanced_quotes_witness :
    (runLine { result := [], current := [], inQuotes := false }
        (("a,\"b" : String).data ++ (",c" : String).data)).inQuotes = true ∧
      parseCSVLine ⟨("a,\"b" : String).data ++ (",c" : String).data⟩ =
        (runLine { result := [], current := [], inQuotes := false } ("a,\"b" : String).data).result ++
          [⟨trimList ((runLine { result := [], current := [], inQuotes := false }
            ("a,\"b" : String).data).current ++ (",c" : String).data)⟩] :=
  parseCSVLine_unbalanced_quotes ("a,\"b" : String).data (",c" : String).data
    (by decide) (by decide)

/-! ### CSV Document Parser and file acceptance (`FileUpload.svelte`) -/

/-- The payload of the `dataLoaded` event dispatched to the parent page. -/
structure DataLoadedEvent where
  columns : List String
  data : List (List String)
  deriving Repr, DecidableEq

/-- Component-local state of `FileUpload.svelte` relevant to parsing, plus
the list of dispatched `dataLoaded` events. -/
structure UploadState where
  columns : List String
  csvData : List (List String)
  errorMessage : String
  events : List DataLoadedEvent
  deriving Repr, DecidableEq

/-- The initial component state: no columns, no data, no error, no events. -/
def initialUploadState : UploadState :=
  { columns := [], csvData := [], errorMessage := "", events := [] }

/-- JS `content.split('\n')`. -/
def splitLines (content : String) : List String :=
  (content.data.splitOn '\n').map fun l => ⟨l⟩

/-- `content.split('\n').filter((line) => line.trim())`: keep exactly the
lines whose trimmed form is a truthy (non-empty) string. -/
def nonBlankLines (content : String) : List String :=
  (splitLines content).filter fun l => jsTrim l != ""

/-- The `reader.onload` handler of `readCSVColumns`: if at least one
non-blank line remains, parse the first as headers and the rest as rows and
dispatch a `dataLoaded` event; otherwise do nothing (the state, including
`errorMessage`, is left untouched). -/
def readCSVOnload (content : String) (st : UploadState) : UploadState :=
  match nonBlankLines content with
  | [] => st
  | firstLine :: rest =>
    let columns := parseCSVLine firstLine
    let rows := rest.map parseCSVLine
    { columns := columns, csvData := rows, errorMessage := st.errorMessage,
      events := st.events ++ [{ columns := columns, data := rows }] }

/-- The `reader.onerror` handler of `readCSVColumns`: the only failure
signal the reader ever raises, and it concerns the byte-level read, not
empty content. -/
def readCSVOnerror (st : UploadState) : UploadState :=
  { columns := st.columns, csvData := st.csvData,
    errorMessage := "Error reading file", events := st.events }

/-- JS `String.prototype.endsWith` with a plain string argument: the
receiver's characters end with the argument's characters. -/
def jsEndsWith (s suffixArg : String) : Bool :=
  suffixArg.data.isSuffixOf s.data

/-- JS `String.prototype.toLowerCase` restricted to ASCII letters (the only
characters relevant to the `.csv` extension check). -/
def jsToLower (s : String) : String :=
  ⟨s.data.map fun c => if 'A' ≤ c && c ≤ 'Z' then Char.ofNat (c.toNat + 32) else c⟩

/-- `processFile` from `FileUpload.svelte`: clear the error message, then
reject unless the declared media type is `text/csv` or the file name ends in
`.csv` (case-sensitively); the boolean reports whether processing proceeds
to `readCSVColumns`. -/
def processFile (fileType fileName : String) (st : UploadState) : UploadState × Bool :=
  if fileType != "text/csv" && !(jsEndsWith fileName ".csv") then
    ({ columns := st.columns, csvData := st.csvData,
       errorMessage := "Please select a valid CSV file", events := st.events }, false)
  else
    ({ columns := st.columns, csvData := st.csvData, errorMessage := "", events := st.events }, true)

/-- C3 counterexample: on the empty string — zero non-blank lines — the
onload handler leaves the component state entirely unchanged: no headers, no
rows, no `dataLoaded` event, and crucially `errorMessage` stays empty, so no
"no content" failure result is declared anywhere; the code silently does
nothing, contradicting the claimed declared-failure behaviour. -/
theorem readCSVOnload_empty_silent :
    readCSVOnload "" initialUploadState = initialUploadState ∧
      (readCSVOnload "" initialUploadState).errorMessage = "" ∧
      (readCSVOnload "" initialUploadState).events = [] := by
  decide

/-- C3 amended: for every input text with zero non-blank lines after
filtering, the onload handler returns the prior state unchanged — no
`dataLoaded` notification is emitted and no headers or rows are produced,
but no failure is signalled either: the handler silently does nothing. -/
theorem readCSVOnload_no_content (content : String) (st : UploadState)
    (h : nonBlankLines content = []) : readCSVOnload content st = st := by
  unfold readCSVOnload
  rw [h]

/-- Witness for the amended C3 at a whitespace-only input. -/
theorem readCSVOnload_no_content_witness :
    nonBlankLines " \n " = [] ∧
      readCSVOnload " \n "
          { columns := ["a"], csvData := [["b"]], errorMessage := "", events := [] } =
        { columns := ["a"], csvData := [["b"]], errorMessage := "", events := [] } :=
  ⟨by decide, readCSVOnload_no_content " \n " _ (by decide)⟩

/-- C2 counterexample: a file named `export.CSV` whose declared media type
is not `text/csv`.  Its name ends in `.csv` when compared
case-insensitively, so the claim says processing proceeds — but the code's
`endsWith('.csv')` check is case-sensitive, and the file is rejected with
the user-visible message. -/
theorem processFile_rejects_uppercase_csv :
    (processFile "" "export.CSV" initialUploadState).2 = false ∧
      (processFile "" "export.CSV" initialUploadState).1.errorMessage =
        "Please select a valid CSV file" ∧
      jsEndsWith (jsToLower "export.CSV") ".csv" = true := by
  decide

/-- C2 amended: processing proceeds if and only if the declared media type
is exactly `text/csv` or the file name ends in `.csv` compared
case-sensitively; every other file is rejected with the user-visible error
message and no further processing happens. -/
theorem processFile_accepts_iff (fileType fileName : String) (st : UploadState) :
    ((processFile fileType fileName st).2 = true ↔
      fileType = "text/csv" ∨ jsEndsWith fileName ".csv" = true) ∧
    ((processFile fileType fileName st).2 = false →
      (processFile fileType fileName st).1.errorMessage = "Please select a valid CSV file") := by
  unfold processFile
  by_cases h1 : fileType = "text/csv"
  · constructor <;> simp [h1]
  · by_cases h2 : jsEndsWith fileName ".csv" = true
    · constructor <;> simp [h1, h2]
    · constructor <;> simp [h1, h2]

/-! ### Page state (`+page.svelte`) -/

/-- The component-local state of `+page.svelte` touched by
`handleDataLoaded`. -/
structure PageState where
  columns : List String
  csvData : List (List String)
  hasData : Bool
  selectedLocationId : String
  selectedLocationName : String
  selectedCharacteristicName : String
  deriving Repr, DecidableEq

/-- `handleDataLoaded` from `+page.svelte`: store the new columns and rows,
mark data as present, and reset all three selection fields to the empty
string. -/
def handleDataLoaded (_st : PageState) (ev : DataLoadedEvent) : PageState :=
  { columns := ev.columns, csvData := ev.data, hasData := true,
    selectedLocationId := "", selectedLocationName := "",
    selectedCharacteristicName := "" }

/-- C9: for every prior selection state and every `dataLoaded` event, the
handler resets the selected location id, location name, and characteristic
name to the empty string and replaces the stored table wholesale by the
event's columns and rows. -/
theorem handleDataLoaded_resets_selection (st : PageState) (ev : DataLoadedEvent) :
    (handleDataLoaded st ev).selectedLocationId = "" ∧
      (handleDataLoaded st ev).selectedLocationName = "" ∧
      (handleDataLoaded st ev).selectedCharacteristicName = "" ∧
      (handleDataLoaded st ev).columns = ev.columns ∧
      (handleDataLoaded st ev).csvData = ev.data ∧
      (handleDataLoaded st ev).hasData = true :=
  ⟨rfl, rfl, rfl, rfl, rfl, rfl⟩

/-! ### JS numeric parsing (`parseFloat`) -/

/-- A non-`NaN` JavaScript number as produced by `parseFloat`: a finite
value (idealised as an exact rational — the IEEE rounding of finite values
is not modelled) or one of the two infinities.  `NaN` is `Option.none` at
the use sites. -/
inductive JSNum where
  | finite (q : ℚ)
  | posInf
  | negInf
  deriving Repr, DecidableEq

/-- The rational payload of a finite JS number (zero on the infinities,
used only where finiteness is already known). -/
def finQ : JSNum → ℚ
  | JSNum.finite q => q
  | JSNum.posInf => 0
  | JSNum.negInf => 0

/-- Decimal value of a run of ASCII digits (most significant first). -/
def digitsToNat (l : List Char) : ℕ :=
  l.foldl (fun a c => a * 10 + (c.toNat - '0'.toNat)) 0

/-- The smallest magnitude that IEEE-754 binary64 round-to-nearest sends to
infinity: `2^1024 − 2^970`, the midpoint between the largest finite double
and `2^1024` (stated as a literal so that evaluation never unfolds the
powers; `overflowThreshold_eq` checks the value). -/
def overflowThreshold : ℕ :=
  179769313486231580793728971405303415079934132710037826936173778980444968292764750946649017977587207096330286416692887910946555547851940402630657488671505820681908902000708383676273854845817711531764475730270069855571366959622842914819860834936475292719074168444365510704342711559699508093042880177904174497792

set_option maxRecDepth 4000 in
theorem overflowThreshold_eq : overflowThreshold = 2 ^ 1024 - 2 ^ 970 := by decide

/-- JS `parseFloat`: skip leading whitespace, read an optional sign, then
either the keyword `Infinity` (giving a signed infinity) or the longest
prefix shaped like a decimal literal (digits, optional fraction, optional
exponent), ignoring trailing characters.  A literal whose magnitude reaches
`overflowThreshold` overflows to a signed infinity, as the double
conversion does; when no digits and no `Infinity` keyword are read the
result is `NaN`, modelled as `none`.  Finite results are exact rationals
(double rounding and underflow of finite values are idealised away). -/
def parseFloat (s : String) : Option JSNum :=
  let l0 := s.data.dropWhile jsWhitespaceChar
  let neg : Bool := match l0 with
    | '-' :: _ => true
    | _ => false
  let l1 : List Char := match l0 with
    | '-' :: r => r
    | '+' :: r => r
    | _ => l0
  if ("Infinity" : String).data.isPrefixOf l1 then
    some (if neg then JSNum.negInf else JSNum.posInf)
  else
    let intDigits := l1.takeWhile Char.isDigit
    let l2 := l1.dropWhile Char.isDigit
    let fracDigits : List Char := match l2 with
      | '.' :: r => r.takeWhile Char.isDigit
      | _ => []
    let l3 : List Char := match l2 with
      | '.' :: r => r.dropWhile Char.isDigit
      | _ => l2
    if intDigits.isEmpty && fracDigits.isEmpty then none
    else
      let expVal : ℤ := match l3 with
        | c :: r =>
          if c = 'e' ∨ c = 'E' then
            match r with
            | '-' :: r2 => if (r2.takeWhile Char.isDigit).isEmpty then 0
                else -(digitsToNat (r2.takeWhile Char.isDigit) : ℤ)
            | '+' :: r2 => if (r2.takeWhile Char.isDigit).isEmpty then 0
                else (digitsToNat (r2.takeWhile Char.isDigit) : ℤ)
            | _ => if (r.takeWhile Char.isDigit).isEmpty then 0
                else (digitsToNat (r.takeWhile Char.isDigit) : ℤ)
          else 0
        | [] => 0
      let mantNat : ℕ := digitsToNat (intDigits ++ fracDigits)
      let scale : ℤ := expVal - fracDigits.length
      let overflow : Bool :=
        if 0 ≤ scale then decide (overflowThreshold ≤ mantNat * 10 ^ scale.toNat)
        else decide (overflowThreshold * 10 ^ (-scale).toNat ≤ mantNat)
      if overflow then some (if neg then JSNum.negInf else JSNum.posInf)
      else
        let mag : ℚ := (mantNat : ℚ) * (10 : ℚ) ^ scale
        some (JSNum.finite (if neg then -mag else mag))

example : (parseFloat "7.2").isSome = true := by decide
example : (parseFloat "-1.5e1").isSome = true := by decide
example : parseFloat "" = none := by decide
example : parseFloat "  " = none := by decide
example : parseFloat "Not Detected" = none := by decide
example : (parseFloat "12abc").isSome = true := by decide
example : parseFloat "Infinity" = some JSNum.posInf := by decide
example : parseFloat "-Infinity" = some JSNum.negInf := by decide
example : parseFloat "Infinit" = none := by decide
set_option maxRecDepth 8000 in
example : parseFloat "1e999" = some JSNum.posInf := by decide
set_option maxRecDepth 8000 in
example : parseFloat "-1e999" = some JSNum.negInf := by decide
set_option maxRecDepth 8000 in
example : (parseFloat "1e300").isSome = true ∧ parseFloat "1e300" ≠ some JSNum.posInf := by decide

/-! ### Cell access and JS objects as association lists -/

/-- JS `columns.indexOf(name)`: index of the first exact match, `none` for
the JS result `-1`. -/
def idxOf (name : String) (columns : List String) : Option ℕ :=
  columns.findIdx? fun c => c == name

/-- JS `row[i]` where `i` may be the `-1` of a failed `indexOf` (modelled by
`none`) and out-of-range reads yield `undefined` (`none`). -/
def getCell (row : List String) : Option ℕ → Option String
  | none => none
  | some i => row.get? i

/-- JS truthiness of a cell read: `undefined` and the empty string are
falsy, every other string is truthy. -/
def truthyCell : Option String → Bool
  | none => false
  | some s => s != ""

/-- `parseFloat(row[i])`: a missing cell reads as `undefined`, which
`parseFloat` turns into `NaN`. -/
def parseFloatCell : Option String → Option JSNum
  | none => none
  | some s => parseFloat s

/-- Property write `acc[id] = name` on a plain JS object, modelled as an
association list of own properties: an existing key is updated in place, a
new key is appended — except the key `__proto__`, for which the assignment
of a string value goes through the inherited `Object.prototype` accessor
setter and is a silent no-op (no own property is created). -/
def recordSet (m : List (String × String)) (k v : String) : List (String × String) :=
  if k = "__proto__" then m
  else if m.any fun p => p.1 == k then
    m.map fun p => if p.1 == k then (p.1, v) else p
  else m ++ [(k, v)]

/-- Property read on the association-list model of a JS object: value at
the first (and, as built here, only) occurrence of the key. -/
def recordGet : List (String × String) → String → Option String
  | [], _ => none
  | p :: m, k => if p.1 == k then some p.2 else recordGet m k

theorem recordGet_mapUpdate (m : List (String × String)) (k v q : String) :
    recordGet (m.map fun p => if p.1 == k then (p.1, v) else p) q =
      if q = k then (recordGet m q).map fun _ => v else recordGet m q := by
  induction m with
  | nil => by_cases h : q = k <;> simp [recordGet, h]
  | cons p m ih =>
    obtain ⟨a, b⟩ := p
    by_cases hak : a = k
    · subst hak
      by_cases haq : a = q
      · subst haq
        simp [recordGet]
      · have hqa : ¬q = a := fun h => haq h.symm
        simp only [beq_iff_eq] at ih
        simp [recordGet, haq, hqa, ih]
    · by_cases haq : a = q
      · subst haq
        have hqa : ¬a = k := hak
        simp [recordGet, hqa]
      · simp only [beq_iff_eq] at ih
        simp [recordGet, hak, haq, ih]

theorem recordGet_of_any (m : List (String × String)) (k : String)
    (h : (m.any fun p => p.1 == k) = true) : ∃ b, recordGet m k = some b := by
  induction m with
  | nil => simp at h
  | cons p m ih =>
    obtain ⟨a, b⟩ := p
    by_cases hak : a = k
    · exact ⟨b, by simp [recordGet, hak]⟩
    · simp only [List.any_cons, Bool.or_eq_true] at h
      rcases h with h1 | h2
      · exact absurd (by simpa using h1) hak
      · obtain ⟨c, hc⟩ := ih h2
        exact ⟨c, by simp [recordGet, hak, hc]⟩

theorem recordGet_of_not_any (m : List (String × String)) (k : String)
    (h : (m.any fun p => p.1 == k) = false) : recordGet m k = none := by
  induction m with
  | nil => rfl
  | cons p m ih =>
    obtain ⟨a, b⟩ := p
    simp only [List.any_cons, Bool.or_eq_false_iff] at h
    obtain ⟨h1, h2⟩ := h
    have hak : ¬a = k := by simpa using h1
    simp [recordGet, hak, ih h2]

theorem recordGet_append (m1 m2 : List (String × String)) (q : String) :
    recordGet (m1 ++ m2) q = (recordGet m1 q).or (recordGet m2 q) := by
  induction m1 with
  | nil => simp [recordGet]
  | cons p m ih =>
    obtain ⟨a, b⟩ := p
    by_cases haq : a = q
    · simp [recordGet, haq]
    · simp [recordGet, haq, ih]

theorem recordGet_recordSet_proto (m : List (String × String)) (v q : String) :
    recordGet (recordSet m "__proto__" v) q = recordGet m q := by
  unfold recordSet
  rw [if_pos rfl]

theorem recordGet_recordSet_of_ne (m : List (String × String)) (k v q : String)
    (hk : ¬k = "__proto__") :
    recordGet (recordSet m k v) q = if q = k then some v else recordGet m q := by
  unfold recordSet
  rw [if_neg hk]
  by_cases hany : (m.any fun p => p.1 == k) = true
  · rw [if_pos hany, recordGet_mapUpdate]
    by_cases hqk : q = k
    · subst hqk
      obtain ⟨b, hb⟩ := recordGet_of_any m q hany
      simp [hb]
    · simp [hqk]
  · rw [if_neg hany]
    have hfalse : (m.any fun p => p.1 == k) = false := by
      cases h : m.any fun p => p.1 == k
      · rfl
      · exact absurd h hany
    have hnone : recordGet m k = none := recordGet_of_not_any m k hfalse
    rw [recordGet_append]
    by_cases hqk : q = k
    · subst hqk
      simp [hnone, recordGet]
    · have hkq : ¬k = q := fun h => hqk h.symm
      simp only [recordGet, beq_iff_eq, hkq, if_neg, if_false, ite_false]
      rw [if_neg hqk]
      cases recordGet m q <;> simp [hkq]

/-! ### Location name map (`locationNameIdMap` in `+page.svelte`) -/

/-- `row[columns.indexOf('MonitoringLocationID')]`. -/
def lnIdCell (columns row : List String) : Option String :=
  getCell row (idxOf "MonitoringLocationID" columns)

/-- `row[columns.indexOf('MonitoringLocationName')]`. -/
def lnNameCell (columns row : List String) : Option String :=
  getCell row (idxOf "MonitoringLocationName" columns)

/-- One step of the `reduce` in `locationNameIdMap`:
`if (id && name) acc[id] = name`. -/
def lnStep (columns : List String) (acc : List (String × String)) (row : List String) :
    List (String × String) :=
  if truthyCell (lnIdCell columns row) && truthyCell (lnNameCell columns row) then
    recordSet acc ((lnIdCell columns row).getD "") ((lnNameCell columns row).getD "")
  else acc

/-- `locationNameIdMap` from `+page.svelte`: requires `hasData` and both
columns present by exact name, else the empty object; otherwise reduces the
rows into an id-to-name object. -/
def locationNameIdMap (hasData : Bool) (columns : List String) (rows : List (List String)) :
    List (String × String) :=
  if hasData && columns.contains "MonitoringLocationID" &&
      columns.contains "MonitoringLocationName" then
    rows.foldl (lnStep columns) []
  else []

/-- A row contributes to the map iff both its id and name fields are truthy. -/
def lnContrib (columns row : List String) : Bool :=
  truthyCell (lnIdCell columns row) && truthyCell (lnNameCell columns row)

/-- The id a contributing row writes. -/
def lnId (columns row : List String) : String :=
  (lnIdCell columns row).getD ""

/-- The name a contributing row writes. -/
def lnName (columns row : List String) : String :=
  (lnNameCell columns row).getD ""

/-- The name field of the last contributing row bearing id `q`, if any —
the value the spec says the map associates to `q`. -/
def lastContribName (columns : List String) (rows : List (List String)) (q : String) :
    Option String :=
  ((rows.filter fun r => lnContrib columns r && (lnId columns r == q)).getLast?).map
    (lnName columns)

theorem lnStep_recordGet (columns : List String) (acc : List (String × String))
    (r : List String) (q : String) :
    recordGet (lnStep columns acc r) q =
      if (lnContrib columns r && (lnId columns r == q)) = true ∧ ¬q = "__proto__" then
        some (lnName columns r)
      else recordGet acc q := by
  unfold lnStep lnContrib lnId lnName
  by_cases hc : (truthyCell (lnIdCell columns r) && truthyCell (lnNameCell columns r)) = true
  · rw [if_pos hc]
    by_cases hk : (lnIdCell columns r).getD "" = "__proto__"
    · rw [hk, recordGet_recordSet_proto]
      rw [if_neg]
      rintro ⟨hpred, hq⟩
      simp only [Bool.and_eq_true, beq_iff_eq] at hpred
      exact hq hpred.2.symm
    · rw [recordGet_recordSet_of_ne _ _ _ _ hk]
      by_cases hq : q = (lnIdCell columns r).getD ""
      · rw [if_pos hq]
        have hcond1 : (truthyCell (lnIdCell columns r) && truthyCell (lnNameCell columns r) &&
            ((lnIdCell columns r).getD "" == q)) = true := by
          simp only [Bool.and_eq_true] at hc ⊢
          exact ⟨hc, by simp [hq]⟩
        have hcond2 : ¬q = "__proto__" := by
          rw [hq]; exact hk
        rw [if_pos ⟨hcond1, hcond2⟩]
      · rw [if_neg hq, if_neg]
        rintro ⟨hpred, -⟩
        simp only [Bool.and_eq_true, beq_iff_eq] at hpred
        exact hq hpred.2.symm
  · rw [if_neg hc, if_neg]
    rintro ⟨hpred, -⟩
    simp only [Bool.and_eq_true] at hpred
    exact hc (by simp [hpred.1.1, hpred.1.2])

theorem lnFoldl_recordGet_proto (columns : List String) (rows : List (List String))
    (acc : List (String × String)) :
    recordGet (rows.foldl (lnStep columns) acc) "__proto__" = recordGet acc "__proto__" := by
  induction rows generalizing acc with
  | nil => rfl
  | cons r rest ih =>
    have hstep : recordGet (lnStep columns acc r) "__proto__" = recordGet acc "__proto__" := by
      rw [lnStep_recordGet, if_neg]
      rintro ⟨-, hq⟩
      exact hq rfl
    have hfold : (r :: rest).foldl (lnStep columns) acc =
        rest.foldl (lnStep columns) (lnStep columns acc r) := rfl
    rw [hfold, ih, hstep]

theorem lnFoldl_recordGet (columns : List String) (rows : List (List String))
    (acc : List (String × String)) (q : String) (hq : ¬q = "__proto__") :
    recordGet (rows.foldl (lnStep columns) acc) q =
      (lastContribName columns rows q).elim (recordGet acc q) some := by
  induction rows generalizing acc with
  | nil => simp [lastContribName]
  | cons r rest ih =>
    have hfold : (r :: rest).foldl (lnStep columns) acc =
        rest.foldl (lnStep columns) (lnStep columns acc r) := rfl
    rw [hfold, ih]
    unfold lastContribName
    rw [List.filter_cons]
    by_cases hpr : (lnContrib columns r && (lnId columns r == q)) = true
    · rw [if_pos hpr]
      cases hl : rest.filter fun x => lnContrib columns x && (lnId columns x == q) with
      | nil =>
        simp only [lastContribName, hl, List.getLast?_nil, Option.map_none', Option.elim,
          List.getLast?_singleton, Option.map_some']
        rw [lnStep_recordGet, if_pos ⟨hpr, hq⟩]
      | cons x xs =>
        simp only [lastContribName, hl, List.getLast?_cons_cons]
        cases hx : (x :: xs).getLast? with
        | none => simp at hx
        | some y => simp [hx]
    · rw [if_neg hpr]
      cases hl : (rest.filter fun x => lnContrib columns x && (lnId columns x == q)).getLast? with
      | none =>
        simp only [hl, Option.map_none', Option.elim]
        rw [lnStep_recordGet, if_neg]
        rintro ⟨hp, -⟩
        exact hpr hp
      | some y => simp [hl]

/-- C8 counterexample: the row `["__proto__", "Lake"]` has both values
non-blank, so the claim says the map associates the name `Lake` to the id
`__proto__` — but in the program `acc["__proto__"] = "Lake"` is a silent
no-op through the inherited prototype accessor, and the resulting map is
empty. -/
theorem locationNameIdMap_proto_counterexample :
    locationNameIdMap true ["MonitoringLocationID", "MonitoringLocationName"]
        [["__proto__", "Lake"]] = [] ∧
      recordGet (locationNameIdMap true ["MonitoringLocationID", "MonitoringLocationName"]
        [["__proto__", "Lake"]]) "__proto__" = none ∧
      lastContribName ["MonitoringLocationID", "MonitoringLocationName"]
        [["__proto__", "Lake"]] "__proto__" = some "Lake" := by
  decide

/-- C8 amended: the location name map is empty when either required column
is absent by exact name match; when both are present the map is built by
scanning rows in order, skipping rows missing either value, with
last-write-wins on duplicate ids — each id maps to the name field of the
last contributing row bearing it — except the id `__proto__`, whose
assignment is a silent no-op through the inherited prototype accessor, so
it is never present in the map. -/
theorem locationNameIdMap_spec (columns : List String) (rows : List (List String)) :
    (¬(columns.contains "MonitoringLocationID" = true ∧
        columns.contains "MonitoringLocationName" = true) →
      locationNameIdMap true columns rows = []) ∧
    (columns.contains "MonitoringLocationID" = true →
      columns.contains "MonitoringLocationName" = true →
      ∀ q, recordGet (locationNameIdMap true columns rows) q =
        if q = "__proto__" then none else lastContribName columns rows q) := by
  constructor
  · intro h
    unfold locationNameIdMap
    rw [if_neg]
    intro hc
    simp only [Bool.and_eq_true] at hc
    exact h ⟨hc.1.2, hc.2⟩
  · intro h1 h2 q
    unfold locationNameIdMap
    rw [if_pos (by rw [h1, h2]; rfl)]
    by_cases hq : q = "__proto__"
    · rw [if_pos hq, hq, lnFoldl_recordGet_proto]
      rfl
    · rw [if_neg hq, lnFoldl_recordGet _ _ _ _ hq]
      cases lastContribName columns rows q <;> simp [recordGet]

/-- Witness for C8: with both columns present, id `L1` maps to the name of
the *last* row bearing it, and with the name column absent the map is
empty. -/
theorem locationNameIdMap_spec_witness :
    recordGet (locationNameIdMap true ["MonitoringLocationID", "MonitoringLocationName"]
        [["L1", "first"], ["L1", "second"]]) "L1" =
      lastContribName ["MonitoringLocationID", "MonitoringLocationName"]
        [["L1", "first"], ["L1", "second"]] "L1" ∧
    locationNameIdMap true ["MonitoringLocationID"] [["L1", "first"]] = [] :=
  ⟨((locationNameIdMap_spec ["MonitoringLocationID", "MonitoringLocationName"]
      [["L1", "first"], ["L1", "second"]]).2 (by decide) (by decide) "L1").trans
        (if_neg (by decide)),
   (locationNameIdMap_spec ["MonitoringLocationID"] [["L1", "first"]]).1 (by decide)⟩

example :
    lastContribName ["MonitoringLocationID", "MonitoringLocationName"]
      [["L1", "first"], ["L1", "second"]] "L1" = some "second" := by decide

/-! ### Monitoring locations for mapping (`monitoringLocations` in `+page.svelte`) -/

/-- A unique monitoring location derived for map display; the coordinates
are JS numbers, so they may be infinities (the code checks only `isNaN`). -/
structure LocationRec where
  id : String
  name : String
  lat : JSNum
  lng : JSNum
  deriving Repr, DecidableEq

/-- The own property keys of `Object.prototype`: reading any of them
through the prototype chain on a plain object yields a truthy value
(a function, or for `__proto__` the prototype object itself), so the
`!uniqueLocations[id]` guard blocks these ids even when the object has no
own property for them. -/
def objectProtoKeys : List String :=
  ["constructor", "hasOwnProperty", "isPrototypeOf", "propertyIsEnumerable",
   "toLocaleString", "toString", "valueOf", "__proto__",
   "__defineGetter__", "__defineSetter__", "__lookupGetter__", "__lookupSetter__"]

theorem contains_iff_mem (l : List String) (a : String) : l.contains a = true ↔ a ∈ l :=
  List.elem_iff

/-- A canonical array-index property key: a non-empty run of digits without
a leading zero (except `0` itself) whose value is below `2^32 − 1`.  JS
object enumeration lists these keys first, in ascending numeric order. -/
def isArrayIndex (s : String) : Bool :=
  !s.data.isEmpty && s.data.all Char.isDigit &&
    (s == "0" || s.data.head? != some '0') &&
    decide (digitsToNat s.data < 4294967295)

/-- Insert a keyed entry into a list sorted by ascending numeric key. -/
def insertNumeric (x : String × LocationRec) :
    List (String × LocationRec) → List (String × LocationRec)
  | [] => [x]
  | y :: ys =>
    if digitsToNat x.1.data ≤ digitsToNat y.1.data then x :: y :: ys
    else y :: insertNumeric x ys

/-- Sort keyed entries by ascending numeric key (insertion sort; the keys
occurring here are pairwise distinct canonical indices). -/
def sortNumeric : List (String × LocationRec) → List (String × LocationRec)
  | [] => []
  | x :: xs => insertNumeric x (sortNumeric xs)

/-- JS `Object.values` on a plain object whose own properties were created
in the order of the association list: array-index keys first in ascending
numeric order, then the remaining keys in insertion order. -/
def jsObjValues (m : List (String × LocationRec)) : List LocationRec :=
  (sortNumeric (m.filter fun p => isArrayIndex p.1) ++
    m.filter fun p => !isArrayIndex p.1).map fun p => p.2

/-- One step of the `forEach` in `monitoringLocations`: a row is recorded
when its id is truthy, both coordinates parse to non-`NaN` numbers, and
the read `uniqueLocations[id]` is falsy — which fails both when the id is
already an own key of the accumulator and when it is an inherited
`Object.prototype` key; the stored name falls back to the id when the name
field is falsy (`name || id`). -/
def mlStep (columns : List String) (acc : List (String × LocationRec)) (row : List String) :
    List (String × LocationRec) :=
  if truthyCell (getCell row (idxOf "MonitoringLocationID" columns)) &&
      (parseFloatCell (getCell row (idxOf "MonitoringLocationLatitude" columns))).isSome &&
      (parseFloatCell (getCell row (idxOf "MonitoringLocationLongitude" columns))).isSome &&
      !((acc.any fun p => p.1 == (getCell row (idxOf "MonitoringLocationID" columns)).getD "") ||
        objectProtoKeys.contains ((getCell row (idxOf "MonitoringLocationID" columns)).getD "")) then
    acc ++ [((getCell row (idxOf "MonitoringLocationID" columns)).getD "",
      { id := (getCell row (idxOf "MonitoringLocationID" columns)).getD "",
        name := if truthyCell (getCell row (idxOf "MonitoringLocationName" columns)) then
            (getCell row (idxOf "MonitoringLocationName" columns)).getD ""
          else (getCell row (idxOf "MonitoringLocationID" columns)).getD "",
        lat := (parseFloatCell (getCell row (idxOf "MonitoringLocationLatitude" columns))).getD
          (JSNum.finite 0),
        lng := (parseFloatCell (getCell row (idxOf "MonitoringLocationLongitude" columns))).getD
          (JSNum.finite 0) })]
  else acc

/-- `monitoringLocations` from `+page.svelte`: empty unless `hasData` and
the id, latitude, and longitude columns are present; otherwise
`Object.values` of the uniqueness object, in JS enumeration order. -/
def monitoringLocations (hasData : Bool) (columns : List String) (rows : List (List String)) :
    List LocationRec :=
  if !(hasData && columns.contains "MonitoringLocationID" &&
      columns.contains "MonitoringLocationLatitude" &&
      columns.contains "MonitoringLocationLongitude") then []
  else jsObjValues (rows.foldl (mlStep columns) [])

/-- Following the claim's words: a location's name is its name field,
falling back to the id when the name is blank or absent. -/
def specNameOf (columns row : List String) (i : String) : String :=
  match getCell row (idxOf "MonitoringLocationName" columns) with
  | some n => if n = "" then i else n
  | none => i

/-- Following the amended claim's words: the location a row offers —
present only when its latitude and longitude fields parse to non-`NaN`
numbers, its id is non-blank, and its id is not an inherited
`Object.prototype` key; the name falls back to the id when blank. -/
def specLocationRow (columns row : List String) : Option LocationRec :=
  (getCell row (idxOf "MonitoringLocationID" columns)).bind fun i =>
    (parseFloatCell (getCell row (idxOf "MonitoringLocationLatitude" columns))).bind fun la =>
      (parseFloatCell (getCell row (idxOf "MonitoringLocationLongitude" columns))).bind fun lo =>
        if i = "" ∨ i ∈ objectProtoKeys then none
        else some { id := i, name := specNameOf columns row i, lat := la, lng := lo }

/-- Following the amended claim's words: scan rows in order, keep the first
occurrence of each id, in first-occurrence order, keyed by id (the JS
enumeration reorder is applied on top by `jsObjValues`). -/
def specLocationPairs (columns : List String) (seen : List String) :
    List (List String) → List (String × LocationRec)
  | [] => []
  | r :: rest =>
    match specLocationRow columns r with
    | some loc =>
      if loc.id ∈ seen then specLocationPairs columns seen rest
      else (loc.id, loc) :: specLocationPairs columns (seen ++ [loc.id]) rest
    | none => specLocationPairs columns seen rest

theorem specLocationRow_some (columns r : List String) (loc : LocationRec)
    (h : specLocationRow columns r = some loc) :
    getCell r (idxOf "MonitoringLocationID" columns) = some loc.id ∧ ¬loc.id = "" ∧
      ¬loc.id ∈ objectProtoKeys ∧
      parseFloatCell (getCell r (idxOf "MonitoringLocationLatitude" columns)) = some loc.lat ∧
      parseFloatCell (getCell r (idxOf "MonitoringLocationLongitude" columns)) = some loc.lng ∧
      loc.name = specNameOf columns r loc.id := by
  unfold specLocationRow at h
  cases hidc : getCell r (idxOf "MonitoringLocationID" columns) with
  | none => rw [hidc] at h; simp at h
  | some s =>
    rw [hidc] at h
    simp only [Option.some_bind] at h
    cases hlat : parseFloatCell (getCell r (idxOf "MonitoringLocationLatitude" columns)) with
    | none => rw [hlat] at h; simp at h
    | some la =>
      rw [hlat] at h
      simp only [Option.some_bind] at h
      cases hlng : parseFloatCell (getCell r (idxOf "MonitoringLocationLongitude" columns)) with
      | none => rw [hlng] at h; simp at h
      | some lo =>
        rw [hlng] at h
        simp only [Option.some_bind] at h
        by_cases hse : s = "" ∨ s ∈ objectProtoKeys
        · rw [if_pos hse] at h; simp at h
        · rw [if_neg hse] at h
          injection h with h2
          subst h2
          exact ⟨rfl, (not_or.mp hse).1, (not_or.mp hse).2, rfl, rfl, rfl⟩

theorem mlStep_of_spec_none (columns : List String) (acc : List (String × LocationRec))
    (r : List String) (h : specLocationRow columns r = none) :
    mlStep columns acc r = acc := by
  unfold specLocationRow at h
  unfold mlStep
  cases hidc : getCell r (idxOf "MonitoringLocationID" columns) with
  | none => rw [if_neg]; simp [hidc, truthyCell]
  | some s =>
    rw [hidc] at h
    simp only [Option.some_bind] at h
    cases hlat : parseFloatCell (getCell r (idxOf "MonitoringLocationLatitude" columns)) with
    | none => rw [if_neg]; simp [hlat]
    | some la =>
      rw [hlat] at h
      simp only [Option.some_bind] at h
      cases hlng : parseFloatCell (getCell r (idxOf "MonitoringLocationLongitude" columns)) with
      | none => rw [if_neg]; simp [hlng]
      | some lo =>
        rw [hlng] at h
        simp only [Option.some_bind] at h
        have hs : s = "" ∨ s ∈ objectProtoKeys := by
          by_cases hse : s = "" ∨ s ∈ objectProtoKeys
          · exact hse
          · rw [if_neg hse] at h; simp at h
        rcases hs with hs | hs
        · rw [if_neg]
          simp [hidc, hs, truthyCell]
        · rw [if_neg]
          simp [hidc, hs]

theorem mlStep_of_spec_seen (columns : List String) (acc : List (String × LocationRec))
    (r : List String) (loc : LocationRec) (h : specLocationRow columns r = some loc)
    (hseen : (acc.any fun p => p.1 == loc.id) = true) :
    mlStep columns acc r = acc := by
  obtain ⟨hidc, -, -, -, -, -⟩ := specLocationRow_some columns r loc h
  unfold mlStep
  rw [if_neg]
  simp [hidc, hseen]

theorem mlStep_of_spec_new (columns : List String) (acc : List (String × LocationRec))
    (r : List String) (loc : LocationRec) (h : specLocationRow columns r = some loc)
    (hnew : (acc.any fun p => p.1 == loc.id) = false) :
    mlStep columns acc r = acc ++ [(loc.id, loc)] := by
  obtain ⟨i, nm, la, lo⟩ := loc
  obtain ⟨hidc, hne, hprot, hlat, hlng, hname⟩ :=
    specLocationRow_some columns r { id := i, name := nm, lat := la, lng := lo } h
  simp only at hidc hne hprot hlat hlng hname hnew
  unfold mlStep
  rw [hidc, hlat, hlng]
  rw [if_pos (by simp [truthyCell, hne, hnew, hprot])]
  simp only [Option.getD_some, List.append_cancel_left_eq, List.cons.injEq, Prod.mk.injEq,
    LocationRec.mk.injEq, and_true, true_and]
  rw [hname]
  unfold specNameOf
  cases hnc : getCell r (idxOf "MonitoringLocationName" columns) with
  | none => simp [truthyCell]
  | some n =>
    by_cases hn : n = ""
    · simp [truthyCell, hn]
    · simp [truthyCell, hn]

theorem specLocationPairs_cons_none (columns seen : List String) (r : List String)
    (rest : List (List String)) (h : specLocationRow columns r = none) :
    specLocationPairs columns seen (r :: rest) = specLocationPairs columns seen rest := by
  simp only [specLocationPairs, h]

theorem specLocationPairs_cons_seen (columns seen : List String) (r : List String)
    (rest : List (List String)) (loc : LocationRec)
    (h : specLocationRow columns r = some loc) (hs : loc.id ∈ seen) :
    specLocationPairs columns seen (r :: rest) = specLocationPairs columns seen rest := by
  simp only [specLocationPairs, h]
  rw [if_pos hs]

theorem specLocationPairs_cons_new (columns seen : List String) (r : List String)
    (rest : List (List String)) (loc : LocationRec)
    (h : specLocationRow columns r = some loc) (hs : loc.id ∉ seen) :
    specLocationPairs columns seen (r :: rest) =
      (loc.id, loc) :: specLocationPairs columns (seen ++ [loc.id]) rest := by
  simp only [specLocationPairs, h]
  rw [if_neg hs]

theorem mlFoldl_spec (columns : List String) (rows : List (List String))
    (acc : List (String × LocationRec)) :
    rows.foldl (mlStep columns) acc =
      acc ++ specLocationPairs columns (acc.map fun p => p.1) rows := by
  induction rows generalizing acc with
  | nil => simp [specLocationPairs]
  | cons r rest ih =>
    have hfold : (r :: rest).foldl (mlStep columns) acc =
        rest.foldl (mlStep columns) (mlStep columns acc r) := rfl
    have hmem : ∀ s, ((acc.any fun p => p.1 == s) = true) ↔ s ∈ acc.map fun p => p.1 := by
      intro s
      rw [List.any_eq_true, List.mem_map]
      constructor
      · rintro ⟨p, hp, hps⟩
        exact ⟨p, hp, by simpa using hps⟩
      · rintro ⟨p, hp, hps⟩
        exact ⟨p, hp, by simpa using hps⟩
    cases hspec : specLocationRow columns r with
    | none =>
      rw [hfold, mlStep_of_spec_none columns acc r hspec, ih,
        specLocationPairs_cons_none columns _ r rest hspec]
    | some loc =>
      by_cases hseen : (acc.any fun p => p.1 == loc.id) = true
      · rw [hfold, mlStep_of_spec_seen columns acc r loc hspec hseen, ih,
          specLocationPairs_cons_seen columns _ r rest loc hspec ((hmem loc.id).mp hseen)]
      · have hfalse : (acc.any fun p => p.1 == loc.id) = false := by
          cases hh : acc.any fun p => p.1 == loc.id
          · rfl
          · exact absurd hh hseen
        rw [hfold, mlStep_of_spec_new columns acc r loc hspec hfalse, ih,
          specLocationPairs_cons_new columns _ r rest loc hspec
            (fun hmm => hseen ((hmem loc.id).mpr hmm))]
        simp [List.map_append]

/-- C4 counterexample: three divergences from the original claim on
concrete tables.  Ids `"2"` then `"1"` are array-index keys, so
`Object.values` lists the `"1"` record first — not first-occurrence order;
a latitude of `"Infinity"` passes the code's `isNaN` check and the row
contributes although it has no finite parse; and a row whose id is
`"constructor"` never contributes because the `!uniqueLocations[id]` guard
reads a truthy inherited value. -/
theorem monitoringLocations_counterexample :
    (monitoringLocations true
        ["MonitoringLocationID", "MonitoringLocationLatitude", "MonitoringLocationLongitude"]
        [["2", "0", "0"], ["1", "0", "0"]]).map (fun loc => loc.id) = ["1", "2"] ∧
      (monitoringLocations true
        ["MonitoringLocationID", "MonitoringLocationLatitude", "MonitoringLocationLongitude"]
        [["2", "0", "0"], ["1", "0", "0"]]).map (fun loc => loc.id) ≠ ["2", "1"] ∧
      (monitoringLocations true
        ["MonitoringLocationID", "MonitoringLocationLatitude", "MonitoringLocationLongitude"]
        [["A", "Infinity", "0"]]).map (fun loc => (loc.id, loc.lat)) =
          [("A", JSNum.posInf)] ∧
      monitoringLocations true
        ["MonitoringLocationID", "MonitoringLocationLatitude", "MonitoringLocationLongitude"]
        [["constructor", "0", "0"]] = [] := by
  decide

/-- C4 amended: with the id, latitude, and longitude columns present, a row
contributes a location only if its latitude and longitude parse to
non-`NaN` numbers (infinities included — the code has no finiteness check),
its id is non-blank, and its id is not an inherited `Object.prototype` key
(ids such as `constructor` or `__proto__` never contribute); among the
contributing rows the first occurrence per id wins; the output lists
locations whose ids are canonical array indices first, in ascending numeric
order, followed by the rest in first-occurrence order; a blank name falls
back to the id. -/
theorem monitoringLocations_spec (columns : List String) (rows : List (List String))
    (h1 : columns.contains "MonitoringLocationID" = true)
    (h2 : columns.contains "MonitoringLocationLatitude" = true)
    (h3 : columns.contains "MonitoringLocationLongitude" = true) :
    monitoringLocations true columns rows =
      jsObjValues (specLocationPairs columns [] rows) := by
  unfold monitoringLocations
  rw [if_neg (by rw [h1, h2, h3]; decide)]
  have h := mlFoldl_spec columns rows []
  simp only [List.map_nil, List.nil_append] at h
  rw [h]

/-- Witness for C4: a table mixing a repeated id, a blank name, and a
numeric id. -/
theorem monitoringLocations_spec_witness :
    monitoringLocations true
        ["MonitoringLocationID", "MonitoringLocationName",
          "MonitoringLocationLatitude", "MonitoringLocationLongitude"]
        [["A", "Lake", "1", "2"], ["A", "Other", "3", "4"], ["7", "", "5", "6"]] =
      jsObjValues (specLocationPairs
        ["MonitoringLocationID", "MonitoringLocationName",
          "MonitoringLocationLatitude", "MonitoringLocationLongitude"] []
        [["A", "Lake", "1", "2"], ["A", "Other", "3", "4"], ["7", "", "5", "6"]]) :=
  monitoringLocations_spec _ _ (by decide) (by decide) (by decide)

theorem truthyCell_eq_true (o : Option String) :
    truthyCell o = true ↔ ∃ s, o = some s ∧ ¬s = "" := by
  cases o <;> simp [truthyCell]

/-- C10: blank fields count as missing in the location name map — a row
whose id or name field is the empty string contributes no entry, so an id
occurring only in rows with blank names is absent from the map entirely;
in contrast, `monitoringLocations` keeps such a row and falls back to the
id as its display name. -/
theorem locationNameIdMap_blank_vs_fallback :
    (∀ (columns : List String) (rows : List (List String)) (i : String),
      (∀ r ∈ rows, lnIdCell columns r = some i →
        lnNameCell columns r = none ∨ lnNameCell columns r = some "") →
      recordGet (locationNameIdMap true columns rows) i = none) ∧
    (monitoringLocations true
        ["MonitoringLocationID", "MonitoringLocationName",
          "MonitoringLocationLatitude", "MonitoringLocationLongitude"]
        [["L1", "", "1", "2"]]).map (fun loc => (loc.id, loc.name)) = [("L1", "L1")] := by
  constructor
  · intro columns rows i hblank
    unfold locationNameIdMap
    by_cases hcond : (true && columns.contains "MonitoringLocationID" &&
        columns.contains "MonitoringLocationName") = true
    · rw [if_pos hcond]
      by_cases hi : i = "__proto__"
      · rw [hi, lnFoldl_recordGet_proto]
        rfl
      · rw [lnFoldl_recordGet _ _ _ _ hi]
        have hfilter :
            (rows.filter fun r => lnContrib columns r && (lnId columns r == i)) = [] := by
          rw [List.filter_eq_nil_iff]
          intro r hr hcontra
          rw [Bool.and_eq_true] at hcontra
          obtain ⟨hcontrib, hid⟩ := hcontra
          rw [lnContrib, Bool.and_eq_true] at hcontrib
          obtain ⟨hidT, hnameT⟩ := hcontrib
          obtain ⟨s, hs, hsne⟩ := (truthyCell_eq_true _).mp hidT
          have hgd : lnId columns r = s := by rw [lnId, hs]; rfl
          have hsi : s = i := by
            have hb := beq_iff_eq.mp hid
            rw [hgd] at hb
            exact hb
          have hcell : lnIdCell columns r = some i := by rw [hs, hsi]
          rcases hblank r hr hcell with hn | hn
          · rw [hn] at hnameT
            exact absurd hnameT (by simp [truthyCell])
          · rw [hn] at hnameT
            exact absurd hnameT (by simp [truthyCell])
        have hlast : lastContribName columns rows i = none := by
          unfold lastContribName
          rw [hfilter]
          rfl
        rw [hlast]
        rfl
    · rw [if_neg hcond]
      rfl
  · decide

/-- Witness for C10 at a one-row table whose only name field is blank. -/
theorem locationNameIdMap_blank_vs_fallback_witness :
    recordGet (locationNameIdMap true ["MonitoringLocationID", "MonitoringLocationName"]
        [["L1", ""]]) "L1" = none :=
  locationNameIdMap_blank_vs_fallback.1
    ["MonitoringLocationID", "MonitoringLocationName"] [["L1", ""]] "L1" (by decide)

/-! ### Aggregate (average) computation (`averageResultValue` in `+page.svelte`) -/

/-- JS addition on non-`NaN` numbers: infinities absorb finite values, and
opposite infinities give `NaN` (`none`).  Addition of finite values is
idealised as exact rational addition (IEEE rounding and overflow of finite
intermediate sums are not modelled). -/
def jsAdd : JSNum → JSNum → Option JSNum
  | JSNum.finite x, JSNum.finite y => some (JSNum.finite (x + y))
  | JSNum.finite _, JSNum.posInf => some JSNum.posInf
  | JSNum.finite _, JSNum.negInf => some JSNum.negInf
  | JSNum.posInf, JSNum.finite _ => some JSNum.posInf
  | JSNum.posInf, JSNum.posInf => some JSNum.posInf
  | JSNum.posInf, JSNum.negInf => none
  | JSNum.negInf, JSNum.finite _ => some JSNum.negInf
  | JSNum.negInf, JSNum.posInf => none
  | JSNum.negInf, JSNum.negInf => some JSNum.negInf

/-- One step of the JS `reduce` accumulator: `NaN` (`none`) propagates. -/
def jsAddOpt (a : Option JSNum) (b : JSNum) : Option JSNum :=
  match a with
  | none => none
  | some x => jsAdd x b

/-- The JS sum of a list of non-`NaN` numbers, starting from `0` as the
code's `reduce` does. -/
def jsSum (l : List JSNum) : Option JSNum :=
  l.foldl jsAddOpt (some (JSNum.finite 0))

/-- JS division of the accumulated sum by the (positive) matching-row
count: infinities and `NaN` pass through, finite values divide exactly. -/
def jsDivNat (a : Option JSNum) (n : ℕ) : Option JSNum :=
  match a with
  | none => none
  | some (JSNum.finite q) => some (JSNum.finite (q / n))
  | some JSNum.posInf => some JSNum.posInf
  | some JSNum.negInf => some JSNum.negInf

/-- The aggregate shown in the Analysis Results card; `average` is a JS
number, `none` standing for `NaN`. -/
structure AggregateResult where
  average : Option JSNum
  count : ℕ
  unit : String
  deriving Repr, DecidableEq

/-- The row filter of `averageResultValue`: location id and characteristic
equal the selections, and the `ResultValue` cell is truthy and parses to a
non-`NaN` number (finite or infinite). -/
def avgMatches (columns : List String) (selLoc selChar : String) (row : List String) : Bool :=
  (getCell row (idxOf "MonitoringLocationID" columns) == some selLoc) &&
    (getCell row (idxOf "CharacteristicName" columns) == some selChar) &&
    truthyCell (getCell row (idxOf "ResultValue" columns)) &&
    (parseFloatCell (getCell row (idxOf "ResultValue" columns))).isSome

/-- `matchingRows[0][columns.indexOf('ResultUnit')] || 'N/A'`: the first
matching row's result-unit cell when truthy, else the placeholder. -/
def avgUnit (columns : List String) : List (List String) → String
  | first :: _ =>
    if truthyCell (getCell first (idxOf "ResultUnit" columns)) then
      (getCell first (idxOf "ResultUnit" columns)).getD ""
    else "N/A"
  | [] => "N/A"

/-- `averageResultValue` from `+page.svelte`: `null` without data or a full
selection, `null` when any required column is missing (`indexOf === -1`),
`null` when no row matches; otherwise the JS mean of the parsed values
(infinite when a value parsed to an infinity), their count, and the first
matching row's `ResultUnit` value or `'N/A'`. -/
def averageResultValue (hasData : Bool) (columns : List String) (rows : List (List String))
    (selectedLocationId selectedCharacteristicName : String) : Option AggregateResult :=
  if !hasData || selectedLocationId == "" || selectedCharacteristicName == "" then none
  else if (idxOf "MonitoringLocationID" columns).isNone ||
      (idxOf "CharacteristicName" columns).isNone ||
      (idxOf "ResultValue" columns).isNone then none
  else
    let matchingRows :=
      rows.filter (avgMatches columns selectedLocationId selectedCharacteristicName)
    if matchingRows.isEmpty then none
    else
      let sum := matchingRows.foldl
        (fun acc r => jsAddOpt acc
          ((parseFloatCell (getCell r (idxOf "ResultValue" columns))).getD (JSNum.finite 0)))
        (some (JSNum.finite 0))
      some { average := jsDivNat sum matchingRows.length,
             count := matchingRows.length,
             unit := avgUnit columns matchingRows }

/-- Following the amended claim's words: the rows whose location id and
characteristic equal the selections and whose result value parses to a
non-`NaN` number (empty, whitespace-only, and non-numeric values excluded;
values parsing to an infinity included). -/
def specAvgRows (columns : List String) (selLoc selChar : String)
    (rows : List (List String)) : List (List String) :=
  rows.filter fun r =>
    (getCell r (idxOf "MonitoringLocationID" columns) == some selLoc) &&
      (getCell r (idxOf "CharacteristicName" columns) == some selChar) &&
      (parseFloatCell (getCell r (idxOf "ResultValue" columns))).isSome

/-- The parsed result values of a list of matching rows. -/
def specVals (columns : List String) (m : List (List String)) : List JSNum :=
  m.map fun r => (parseFloatCell (getCell r (idxOf "ResultValue" columns))).getD (JSNum.finite 0)

/-- Following the claim's words: the result-unit field of the first
matching row, or the placeholder when that field is absent or blank. -/
def specUnit (columns : List String) : List (List String) → String
  | first :: _ =>
    (match getCell first (idxOf "ResultUnit" columns) with
      | some u => if u = "" then "N/A" else u
      | none => "N/A")
  | [] => "N/A"

/-- The exact rational sum of the parsed matching values, meaningful when
they are all finite. -/
def specSum (columns : List String) (m : List (List String)) : ℚ :=
  ((specVals columns m).map finQ).sum

theorem parseFloat_empty : parseFloat "" = none := rfl

theorem truthyCell_of_parse (o : Option String)
    (h : (parseFloatCell o).isSome = true) : truthyCell o = true := by
  cases o with
  | none => simp [parseFloatCell] at h
  | some s =>
    by_cases hs : s = ""
    · subst hs
      rw [parseFloatCell, parseFloat_empty] at h
      simp at h
    · simp [truthyCell, hs]

theorem avgMatches_eq_spec (columns : List String) (selLoc selChar : String)
    (r : List String) :
    avgMatches columns selLoc selChar r =
      ((getCell r (idxOf "MonitoringLocationID" columns) == some selLoc) &&
        (getCell r (idxOf "CharacteristicName" columns) == some selChar) &&
        (parseFloatCell (getCell r (idxOf "ResultValue" columns))).isSome) := by
  unfold avgMatches
  cases hp : (parseFloatCell (getCell r (idxOf "ResultValue" columns))).isSome with
  | false => simp [hp]
  | true => simp [hp, truthyCell_of_parse _ hp]

theorem jsSum_foldl_finite (l : List JSNum) (a : ℚ)
    (h : ∀ v ∈ l, ∃ q, v = JSNum.finite q) :
    l.foldl jsAddOpt (some (JSNum.finite a)) =
      some (JSNum.finite (a + (l.map finQ).sum)) := by
  induction l generalizing a with
  | nil => simp
  | cons v vs ih =>
    obtain ⟨q, hq⟩ := h v (List.mem_cons_self v vs)
    subst hq
    have hstep : jsAddOpt (some (JSNum.finite a)) (JSNum.finite q) =
        some (JSNum.finite (a + q)) := rfl
    have hfold : (JSNum.finite q :: vs).foldl jsAddOpt (some (JSNum.finite a)) =
        vs.foldl jsAddOpt (jsAddOpt (some (JSNum.finite a)) (JSNum.finite q)) := rfl
    rw [hfold, hstep, ih _ fun v hv => h v (List.mem_cons_of_mem _ hv)]
    simp [finQ, add_assoc]

theorem jsSum_finite (l : List JSNum) (h : ∀ v ∈ l, ∃ q, v = JSNum.finite q) :
    jsSum l = some (JSNum.finite ((l.map finQ).sum)) := by
  unfold jsSum
  rw [jsSum_foldl_finite l 0 h, zero_add]

/-- C1 counterexample: the row `["L1", "Temp", "Infinity", "C"]`.  The
string `Infinity` parses to a non-`NaN` number, so the code's
`!isNaN(parseFloat(...))` filter keeps the row and the aggregate is present
with count 1 and an infinite average — while the claim, which admits only
values that parse as *finite* numbers, declares the aggregate absent. -/
theorem averageResultValue_infinity_counterexample :
    parseFloat "Infinity" = some JSNum.posInf ∧
      averageResultValue true
        ["MonitoringLocationID", "CharacteristicName", "ResultValue", "ResultUnit"]
        [["L1", "Temp", "Infinity", "C"]] "L1" "Temp" =
        some { average := some JSNum.posInf, count := 1, unit := "C" } := by
  decide

/-- C1 amended: with a non-empty selection, the aggregate is absent exactly
when no row matches the selection with a result value that parses to a
non-`NaN` number — values parsing to an infinity are included, the code has
no finiteness check; otherwise its count is the number of matching rows,
its unit is the result-unit field of the first matching row or `N/A` when
absent or blank, and its average is the JS sum of the parsed values divided
by the count — equal to the exact rational mean whenever every matching
value is finite. -/
theorem averageResultValue_spec (columns : List String) (rows : List (List String))
    (selLoc selChar : String) (h1 : ¬selLoc = "") (h2 : ¬selChar = "") :
    (averageResultValue true columns rows selLoc selChar = none ↔
      specAvgRows columns selLoc selChar rows = []) ∧
    (¬specAvgRows columns selLoc selChar rows = [] →
      averageResultValue true columns rows selLoc selChar =
        some { average := jsDivNat (jsSum (specVals columns
                 (specAvgRows columns selLoc selChar rows)))
                 (specAvgRows columns selLoc selChar rows).length,
               count := (specAvgRows columns selLoc selChar rows).length,
               unit := specUnit columns (specAvgRows columns selLoc selChar rows) }) ∧
    ((∀ r ∈ specAvgRows columns selLoc selChar rows, ∃ q,
        parseFloatCell (getCell r (idxOf "ResultValue" columns)) = some (JSNum.finite q)) →
      ¬specAvgRows columns selLoc selChar rows = [] →
      averageResultValue true columns rows selLoc selChar =
        some { average := some (JSNum.finite
                 (specSum columns (specAvgRows columns selLoc selChar rows) /
                   (specAvgRows columns selLoc selChar rows).length)),
               count := (specAvgRows columns selLoc selChar rows).length,
               unit := specUnit columns (specAvgRows columns selLoc selChar rows) }) := by
  unfold averageResultValue
  rw [if_neg (by simp [h1, h2])]
  by_cases hidx : ((idxOf "MonitoringLocationID" columns).isNone ||
      (idxOf "CharacteristicName" columns).isNone ||
      (idxOf "ResultValue" columns).isNone) = true
  · rw [if_pos hidx]
    have hspec : specAvgRows columns selLoc selChar rows = [] := by
      unfold specAvgRows
      rw [List.filter_eq_nil_iff]
      intro r hr hcontra
      simp only [Bool.and_eq_true] at hcontra
      obtain ⟨⟨hla, hch⟩, hre⟩ := hcontra
      simp only [Bool.or_eq_true] at hidx
      rcases hidx with (hn | hn) | hn
      · rw [Option.isNone_iff_eq_none] at hn
        rw [hn] at hla
        exact Bool.noConfusion hla
      · rw [Option.isNone_iff_eq_none] at hn
        rw [hn] at hch
        exact Bool.noConfusion hch
      · rw [Option.isNone_iff_eq_none] at hn
        rw [hn] at hre
        exact Bool.noConfusion hre
    rw [hspec]
    exact ⟨by simp, fun hc => absurd rfl hc, fun _ hc => absurd rfl hc⟩
  · rw [if_neg hidx]
    have hfilter : rows.filter (avgMatches columns selLoc selChar) =
        specAvgRows columns selLoc selChar rows := by
      unfold specAvgRows
      exact List.filter_congr fun r _ => avgMatches_eq_spec columns selLoc selChar r
    simp only [hfilter]
    cases hM : specAvgRows columns selLoc selChar rows with
    | nil => exact ⟨by simp, fun hc => absurd rfl hc, fun _ hc => absurd rfl hc⟩
    | cons first rest =>
      have hsum : (first :: rest).foldl
          (fun acc r => jsAddOpt acc
            ((parseFloatCell (getCell r (idxOf "ResultValue" columns))).getD
              (JSNum.finite 0)))
          (some (JSNum.finite 0)) = jsSum (specVals columns (first :: rest)) := by
        unfold jsSum specVals
        rw [List.foldl_map]
      have hunit : avgUnit columns (first :: rest) = specUnit columns (first :: rest) := by
        cases hu : getCell first (idxOf "ResultUnit" columns) with
        | none => simp [avgUnit, specUnit, hu, truthyCell]
        | some u =>
          by_cases hue : u = ""
          · simp [avgUnit, specUnit, hu, truthyCell, hue]
          · simp [avgUnit, specUnit, hu, truthyCell, hue]
      refine ⟨by simp, ?_, ?_⟩
      · intro
        rw [if_neg (by simp), hsum, hunit]
      · intro hfin hne2
        rw [if_neg (by simp), hsum, hunit]
        have hvals : ∀ v ∈ specVals columns (first :: rest), ∃ q, v = JSNum.finite q := by
          intro v hv
          obtain ⟨r, hr, hrv⟩ := List.mem_map.mp hv
          obtain ⟨q, hq⟩ := hfin r hr
          exact ⟨q, by rw [← hrv, hq]; rfl⟩
        rw [jsSum_finite _ hvals]
        rfl

/-- Witness for C1 at a table with three numeric matches, one non-numeric
match, and one row for another location. -/
theorem averageResultValue_spec_witness :
    (averageResultValue true
        ["MonitoringLocationID", "CharacteristicName", "ResultValue", "ResultUnit"]
        [["L1", "Temp", "7.2", "C"], ["L1", "Temp", "8.1", "C"], ["L1", "Temp", "6.8", "C"],
          ["L1", "Temp", "Not Detected", "C"], ["L2", "Temp", "5", "C"]] "L1" "Temp" = none ↔
      specAvgRows ["MonitoringLocationID", "CharacteristicName", "ResultValue", "ResultUnit"]
        "L1" "Temp"
        [["L1", "Temp", "7.2", "C"], ["L1", "Temp", "8.1", "C"], ["L1", "Temp", "6.8", "C"],
          ["L1", "Temp", "Not Detected", "C"], ["L2", "Temp", "5", "C"]] = []) ∧
    (¬specAvgRows ["MonitoringLocationID", "CharacteristicName", "ResultValue", "ResultUnit"]
        "L1" "Temp"
        [["L1", "Temp", "7.2", "C"], ["L1", "Temp", "8.1", "C"], ["L1", "Temp", "6.8", "C"],
          ["L1", "Temp", "Not Detected", "C"], ["L2", "Temp", "5", "C"]] = [] →
      averageResultValue true
        ["MonitoringLocationID", "CharacteristicName", "ResultValue", "ResultUnit"]
        [["L1", "Temp", "7.2", "C"], ["L1", "Temp", "8.1", "C"], ["L1", "Temp", "6.8", "C"],
          ["L1", "Temp", "Not Detected", "C"], ["L2", "Temp", "5", "C"]] "L1" "Temp" =
        some { average := jsDivNat (jsSum (specVals
                 ["MonitoringLocationID", "CharacteristicName", "ResultValue", "ResultUnit"]
                 (specAvgRows
                   ["MonitoringLocationID", "CharacteristicName", "ResultValue", "ResultUnit"]
                   "L1" "Temp"
                   [["L1", "Temp", "7.2", "C"], ["L1", "Temp", "8.1", "C"],
                     ["L1", "Temp", "6.8", "C"], ["L1", "Temp", "Not Detected", "C"],
                     ["L2", "Temp", "5", "C"]])))
                 (specAvgRows
                   ["MonitoringLocationID", "CharacteristicName", "ResultValue", "ResultUnit"]
                   "L1" "Temp"
                   [["L1", "Temp", "7.2", "C"], ["L1", "Temp", "8.1", "C"],
                     ["L1", "Temp", "6.8", "C"], ["L1", "Temp", "Not Detected", "C"],
                     ["L2", "Temp", "5", "C"]]).length,
               count := (specAvgRows
                   ["MonitoringLocationID", "CharacteristicName", "ResultValue", "ResultUnit"]
                   "L1" "Temp"
                   [["L1", "Temp", "7.2", "C"], ["L1", "Temp", "8.1", "C"],
                     ["L1", "Temp", "6.8", "C"], ["L1", "Temp", "Not Detected", "C"],
                     ["L2", "Temp", "5", "C"]]).length,
               unit := specUnit
                 ["MonitoringLocationID", "CharacteristicName", "ResultValue", "ResultUnit"]
                 (specAvgRows
                   ["MonitoringLocationID", "CharacteristicName", "ResultValue", "ResultUnit"]
                   "L1" "Temp"
                   [["L1", "Temp", "7.2", "C"], ["L1", "Temp", "8.1", "C"],
                     ["L1", "Temp", "6.8", "C"], ["L1", "Temp", "Not Detected", "C"],
                     ["L2", "Temp", "5", "C"]]) }) :=
  ⟨(averageResultValue_spec
      ["MonitoringLocationID", "CharacteristicName", "ResultValue", "ResultUnit"]
      [["L1", "Temp", "7.2", "C"], ["L1", "Temp", "8.1", "C"], ["L1", "Temp", "6.8", "C"],
        ["L1", "Temp", "Not Detected", "C"], ["L2", "Temp", "5", "C"]] "L1" "Temp"
      (by decide) (by decide)).1,
   (averageResultValue_spec
      ["MonitoringLocationID", "CharacteristicName", "ResultValue", "ResultUnit"]
      [["L1", "Temp", "7.2", "C"], ["L1", "Temp", "8.1", "C"], ["L1", "Temp", "6.8", "C"],
        ["L1", "Temp", "Not Detected", "C"], ["L2", "Temp", "5", "C"]] "L1" "Temp"
      (by decide) (by decide)).2.1⟩

example :
    (specAvgRows ["MonitoringLocationID", "CharacteristicName", "ResultValue", "ResultUnit"]
      "L1" "Temp"
      [["L1", "Temp", "7.2", "C"], ["L1", "Temp", "8.1", "C"], ["L1", "Temp", "6.8", "C"],
        ["L1", "Temp", "Not Detected", "C"], ["L2", "Temp", "5", "C"]]).length = 3 := by decide

end DataStream
